import Mathlib

/-
Verification of the basu event bus (crate `basu`, files src/error.rs,
src/event.rs, src/lib.rs, src/impl_sync.rs, src/impl_async.rs).

The bus state is a HashMap from event-type name to a per-type registry,
itself a HashMap from HandlerId to a handler.  Both maps are modelled as
association lists whose operations mirror the HashMap operations used by
the source (get, insert-or-replace, remove single entry, len, keys,
clear).  Handlers are modelled as pure functions from an event to a
success-or-failure result; they do not call back into the bus.  Locks are
modelled as always succeeding (the no-poisoning semantics), which makes
the sync and async variants coincide on state and result; the lock
discipline itself is modelled separately as an explicit trace of lock and
invocation actions that follows the scoping of the lock guards in the
source (a guard is released at the end of its enclosing scope, inner
guards before outer ones).
-/

namespace Basu

/-- Model of `BasuError` (src/error.rs).  A handler failure carries its
message in place of the dynamic `anyhow::Error` payload. -/
inductive BasuError where
  | MutexPoisoned
  | EventTypeNotFOUND
  | HandlerError (msg : String)
deriving DecidableEq

/-- Model of `Event<T>` (src/event.rs): an immutable wrapper around one
payload value. -/
structure Event (α : Type) where
  data : α
deriving DecidableEq

/-- Model of `Event::new`. -/
def Event.mk_new {α : Type} (data : α) : Event α := ⟨data⟩

/-- Model of `Event::get_data`. -/
def Event.get_data {α : Type} (e : Event α) : α := e.data

/-- Model of `HandlerId` (src/lib.rs): an opaque token, a 128-bit UUID in
the source, modelled as a natural number.  Freshness of minted ids is a
precondition of theorems rather than a property of the model. -/
structure HandlerId where
  id : Nat
deriving DecidableEq

/-- Model of `Handler<T>`: a callable that receives a borrowed event and
reports success or failure (trait `Handle<T>` in src/impl_sync.rs and
src/impl_async.rs). -/
abbrev Handler (α : Type) := Event α → Except BasuError Unit

/-- Model of the per-type registry `HandlerMap<T>` as an association
list from `HandlerId` to handler. -/
abbrev HandlerMap (α : Type) := List (HandlerId × Handler α)

/-- Model of `EventBus<T>` (src/lib.rs): the event-type table
`EventHandlerMap<T>`, an association list from event-type name to
per-type registry. -/
structure EventBus (α : Type) where
  event_handler_map : List (String × HandlerMap α)

/-- Model of `EventBus::new`. -/
def EventBus.mk_new (α : Type) : EventBus α := ⟨[]⟩

/-- `HashMap::get`: the value stored under `k`, if any. -/
def alistGet {κ ν : Type} [DecidableEq κ] (k : κ) : List (κ × ν) → Option ν
  | [] => none
  | (k', v) :: rest => if k' = k then some v else alistGet k rest

/-- `HashMap::insert`: replace the value under `k` if the key is present,
otherwise add a new entry. -/
def alistInsert {κ ν : Type} [DecidableEq κ] (k : κ) (v : ν) :
    List (κ × ν) → List (κ × ν)
  | [] => [(k, v)]
  | (k', v') :: rest =>
      if k' = k then (k, v) :: rest else (k', v') :: alistInsert k v rest

/-- `HashMap::remove`: drop the entry under `k` (the first matching entry;
with the HashMap invariant of unique keys there is at most one). -/
def alistRemove {κ ν : Type} [DecidableEq κ] (k : κ) :
    List (κ × ν) → List (κ × ν)
  | [] => []
  | (k', v') :: rest =>
      if k' = k then rest else (k', v') :: alistRemove k rest

/-- Model of `EventBus::subscribe` (src/impl_sync.rs lines 39-63,
src/impl_async.rs lines 42-49).  The freshly minted `HandlerId::new()` is
passed in as the `minted` argument because UUID generation is
nondeterministic.  If an entry for the event type exists, the handler is
inserted into that registry; otherwise a new one-entry registry is
created and inserted into the table. -/
def subscribe {α : Type} (bus : EventBus α) (event_type : String)
    (handler : Handler α) (minted : HandlerId) : HandlerId × EventBus α :=
  match alistGet event_type bus.event_handler_map with
  | some handler_map =>
      (minted,
        ⟨alistInsert event_type (alistInsert minted handler handler_map)
          bus.event_handler_map⟩)
  | none =>
      (minted,
        ⟨alistInsert event_type [(minted, handler)] bus.event_handler_map⟩)

/-- Model of `EventBus::unsubscribe` (src/impl_sync.rs lines 90-106,
src/impl_async.rs lines 87-104): if the event type has an entry, remove
the given id from its registry (a no-op when the id is absent) and
succeed; otherwise fail with `EventTypeNotFOUND` and leave the state
untouched. -/
def unsubscribe {α : Type} (bus : EventBus α) (event_type : String)
    (handler_id : HandlerId) : Except BasuError Unit × EventBus α :=
  match alistGet event_type bus.event_handler_map with
  | some handler_map =>
      (Except.ok (),
        ⟨alistInsert event_type (alistRemove handler_id handler_map)
          bus.event_handler_map⟩)
  | none => (Except.error BasuError.EventTypeNotFOUND, bus)

/-- Model of `try_for_each` over the registry (rayon in impl_sync.rs,
`try_join_all` in impl_async.rs): invoke each handler, stopping at the
first failure in encounter order; the list order stands for the
unspecified HashMap iteration order. -/
def tryForEach {α : Type} (f : HandlerId × Handler α → Except BasuError Unit) :
    List (HandlerId × Handler α) → Except BasuError Unit
  | [] => Except.ok ()
  | p :: rest =>
      match f p with
      | Except.ok _ => tryForEach f rest
      | Except.error e => Except.error e

/-- Model of `EventBus::publish` (src/impl_sync.rs lines 135-151,
src/impl_async.rs lines 133-147): if the event type has an entry, invoke
every handler of its registry on the event and return the first failure
if any; otherwise fail with `EventTypeNotFOUND`.  The state is returned
unchanged because the source performs no map mutation here. -/
def publish {α : Type} (bus : EventBus α) (event_type : String)
    (event_data : Event α) : Except BasuError Unit × EventBus α :=
  match alistGet event_type bus.event_handler_map with
  | some handler_map =>
      (tryForEach (fun p => p.snd event_data) handler_map, bus)
  | none => (Except.error BasuError.EventTypeNotFOUND, bus)

/-- Model of `EventBus::list` (src/impl_sync.rs lines 181-189): the keys
of the event-type table. -/
def list {α : Type} (bus : EventBus α) : List String × EventBus α :=
  (bus.event_handler_map.map Prod.fst, bus)

/-- Model of `EventBus::get_handler_count` (src/impl_sync.rs lines
206-219, src/impl_async.rs lines 197-207): the length of the registry of
the event type, or `EventTypeNotFOUND` when the table has no entry. -/
def get_handler_count {α : Type} (bus : EventBus α) (event_type : String) :
    Except BasuError Nat × EventBus α :=
  match alistGet event_type bus.event_handler_map with
  | some handler_map => (Except.ok handler_map.length, bus)
  | none => (Except.error BasuError.EventTypeNotFOUND, bus)

/-- Model of `EventBus::clear` (src/impl_sync.rs lines 250-258,
src/impl_async.rs lines 238-242): empty the event-type table. -/
def clear {α : Type} (_bus : EventBus α) : EventBus α := ⟨[]⟩

/-- One step of the lock protocol of `publish`, for reasoning about which
locks are held while handlers run. -/
inductive LockAction where
  | acquireTable
  | releaseTable
  | acquireRegistry (event_type : String)
  | releaseRegistry (event_type : String)
  | invokeHandler (id : HandlerId)
deriving DecidableEq

/-- The sequence of lock and invocation actions performed by
`EventBus::publish`, read off the source (src/impl_sync.rs lines 135-151,
src/impl_async.rs lines 133-147).  Both lock guards are local variables
of the function body, so Rust drops them at the end of the enclosing
scope, after the handler invocations: the inner registry guard first,
then the outer table guard. -/
def publishTrace {α : Type} (bus : EventBus α) (event_type : String) :
    List LockAction :=
  match alistGet event_type bus.event_handler_map with
  | some handler_map =>
      LockAction.acquireTable :: LockAction.acquireRegistry event_type ::
        (handler_map.map (fun p => LockAction.invokeHandler p.fst) ++
          [LockAction.releaseRegistry event_type, LockAction.releaseTable])
  | none => [LockAction.acquireTable, LockAction.releaseTable]

/-- The handler ids invoked along a trace, in order. -/
def invokedIds (tr : List LockAction) : List HandlerId :=
  tr.filterMap fun a =>
    match a with
    | LockAction.invokeHandler i => some i
    | _ => none

/-- Whether the table lock is released before any handler invocation in
the trace: scanning left to right, `releaseTable` comes before the first
`invokeHandler` (vacuously true when no handler is invoked). -/
def releasedBeforeFirstInvoke : List LockAction → Bool
  | [] => true
  | LockAction.releaseTable :: _ => true
  | LockAction.invokeHandler _ :: _ => false
  | _ :: rest => releasedBeforeFirstInvoke rest

/-- Specification-side definition, following the words of the spec: "the
first failure encountered is surfaced as the publish call failure".  It
returns the error of the first element on which `f` fails, if any. -/
def firstFailure {α : Type} (f : HandlerId × Handler α → Except BasuError Unit) :
    List (HandlerId × Handler α) → Option BasuError
  | [] => none
  | p :: rest =>
      match f p with
      | Except.ok _ => firstFailure f rest
      | Except.error e => some e

/-- Iterated `subscribe`: perform one subscribe call per (minted id,
handler) pair, threading the bus state. -/
def subscribeList {α : Type} (event_type : String) :
    EventBus α → List (HandlerId × Handler α) → EventBus α
  | bus, [] => bus
  | bus, (i, h) :: rest =>
      subscribeList event_type (subscribe bus event_type h i).snd rest

section AlistLemmas

variable {κ ν : Type} [DecidableEq κ]

theorem alistGet_insert_self (k : κ) (v : ν) (m : List (κ × ν)) :
    alistGet k (alistInsert k v m) = some v := by
  induction m with
  | nil => simp [alistGet, alistInsert]
  | cons p rest ih =>
      obtain ⟨k', v'⟩ := p
      by_cases hk : k' = k
      · subst hk
        simp [alistGet, alistInsert]
      · simp [alistGet, alistInsert, hk, ih]

theorem alistGet_insert_ne (k k' : κ) (v : ν) (m : List (κ × ν))
    (h : k' ≠ k) : alistGet k (alistInsert k' v m) = alistGet k m := by
  induction m with
  | nil => simp [alistGet, alistInsert, h]
  | cons p rest ih =>
      obtain ⟨k'', v''⟩ := p
      by_cases hk : k'' = k'
      · subst hk
        simp [alistGet, alistInsert, h]
      · by_cases hk2 : k'' = k
        · subst hk2
          simp [alistGet, alistInsert, hk]
        · simp [alistGet, alistInsert, hk, hk2, ih]

theorem alistGet_some_mem (k : κ) (v : ν) (m : List (κ × ν))
    (h : alistGet k m = some v) : k ∈ m.map Prod.fst := by
  induction m with
  | nil => simp [alistGet] at h
  | cons p rest ih =>
      obtain ⟨k', v'⟩ := p
      by_cases hk : k' = k
      · subst hk
        simp
      · simp [alistGet, hk] at h
        simp [ih h]

theorem alistInsert_of_not_mem (k : κ) (v : ν) (m : List (κ × ν))
    (h : k ∉ m.map Prod.fst) : alistInsert k v m = m ++ [(k, v)] := by
  induction m with
  | nil => simp [alistInsert]
  | cons p rest ih =>
      obtain ⟨k', v'⟩ := p
      simp only [List.map_cons, List.mem_cons] at h
      push_neg at h
      simp [alistInsert, Ne.symm h.1, ih h.2]

theorem alistInsert_keys_of_mem (k : κ) (v : ν) (m : List (κ × ν))
    (h : k ∈ m.map Prod.fst) :
    (alistInsert k v m).map Prod.fst = m.map Prod.fst := by
  induction m with
  | nil => simp at h
  | cons p rest ih =>
      obtain ⟨k', v'⟩ := p
      by_cases hk : k' = k
      · subst hk
        simp [alistInsert]
      · simp only [List.map_cons, List.mem_cons] at h
        rcases h with h | h
        · exact absurd h.symm hk
        · simp [alistInsert, hk, ih h]

theorem alistInsert_length_of_mem (k : κ) (v : ν) (m : List (κ × ν))
    (h : k ∈ m.map Prod.fst) :
    (alistInsert k v m).length = m.length := by
  have := alistInsert_keys_of_mem k v m h
  calc (alistInsert k v m).length
      = ((alistInsert k v m).map Prod.fst).length := by simp
    _ = (m.map Prod.fst).length := by rw [this]
    _ = m.length := by simp

theorem alistRemove_of_not_mem (k : κ) (m : List (κ × ν))
    (h : k ∉ m.map Prod.fst) : alistRemove k m = m := by
  induction m with
  | nil => simp [alistRemove]
  | cons p rest ih =>
      obtain ⟨k', v'⟩ := p
      simp only [List.map_cons, List.mem_cons] at h
      push_neg at h
      simp [alistRemove, Ne.symm h.1, ih h.2]

theorem alistRemove_length_of_mem (k : κ) (m : List (κ × ν))
    (h : k ∈ m.map Prod.fst) :
    (alistRemove k m).length + 1 = m.length := by
  induction m with
  | nil => simp at h
  | cons p rest ih =>
      obtain ⟨k', v'⟩ := p
      by_cases hk : k' = k
      · subst hk
        simp [alistRemove]
      · simp only [List.map_cons, List.mem_cons] at h
        rcases h with h | h
        · exact absurd h.symm hk
        · simp [alistRemove, hk, ih h]

theorem alistRemove_not_mem_keys (k : κ) (m : List (κ × ν))
    (hnd : (m.map Prod.fst).Nodup) :
    k ∉ (alistRemove k m).map Prod.fst := by
  induction m with
  | nil => simp [alistRemove]
  | cons p rest ih =>
      obtain ⟨k', v'⟩ := p
      rw [List.map_cons, List.nodup_cons] at hnd
      by_cases hk : k' = k
      · subst hk
        simpa [alistRemove] using hnd.1
      · simp only [alistRemove, if_neg hk, List.map_cons, List.mem_cons]
        push_neg
        exact ⟨fun he => hk he.symm, ih hnd.2⟩

end AlistLemmas

section TryForEachLemmas

variable {α : Type}

theorem tryForEach_ok_iff (f : HandlerId × Handler α → Except BasuError Unit)
    (l : List (HandlerId × Handler α)) :
    tryForEach f l = Except.ok () ↔ ∀ p ∈ l, f p = Except.ok () := by
  induction l with
  | nil => simp [tryForEach]
  | cons p rest ih =>
      cases hf : f p with
      | ok u =>
          cases u
          simp [tryForEach, hf, ih]
      | error e =>
          simp only [tryForEach, hf]
          constructor
          · intro h
            simp at h
          · intro h
            have hp := h p (by simp)
            rw [hf] at hp
            simp at hp

theorem tryForEach_firstFailure
    (f : HandlerId × Handler α → Except BasuError Unit)
    (l : List (HandlerId × Handler α)) (e : BasuError)
    (h : firstFailure f l = some e) : tryForEach f l = Except.error e := by
  induction l with
  | nil => simp [firstFailure] at h
  | cons p rest ih =>
      cases hf : f p with
      | ok u =>
          simp [firstFailure, hf] at h
          simp [tryForEach, hf, ih h]
      | error e' =>
          simp [firstFailure, hf] at h
          simp [tryForEach, hf, h]

end TryForEachLemmas

section BusLemmas

variable {α : Type}

theorem get_handler_count_of_get (bus : EventBus α) (et : String)
    (hm : HandlerMap α) (h : alistGet et bus.event_handler_map = some hm) :
    (get_handler_count bus et).fst = Except.ok hm.length := by
  simp [get_handler_count, h]

theorem subscribe_get_some (bus : EventBus α) (et : String)
    (handler : Handler α) (minted : HandlerId) (hm : HandlerMap α)
    (h : alistGet et bus.event_handler_map = some hm) :
    alistGet et (subscribe bus et handler minted).snd.event_handler_map
      = some (alistInsert minted handler hm) := by
  simp [subscribe, h, alistGet_insert_self]

theorem unsubscribe_fst_ok (bus : EventBus α) (et : String)
    (hid : HandlerId) (hm : HandlerMap α)
    (h : alistGet et bus.event_handler_map = some hm) :
    (unsubscribe bus et hid).fst = Except.ok () := by
  simp [unsubscribe, h]

theorem subscribe_get_none (bus : EventBus α) (et : String)
    (handler : Handler α) (minted : HandlerId)
    (h : alistGet et bus.event_handler_map = none) :
    alistGet et (subscribe bus et handler minted).snd.event_handler_map
      = some [(minted, handler)] := by
  simp [subscribe, h, alistGet_insert_self]

theorem subscribeList_get (et : String) (pairs : List (HandlerId × Handler α)) :
    ∀ (bus : EventBus α) (hm : HandlerMap α),
      alistGet et bus.event_handler_map = some hm →
      ((hm ++ pairs).map Prod.fst).Nodup →
      alistGet et (subscribeList et bus pairs).event_handler_map
        = some (hm ++ pairs) := by
  induction pairs with
  | nil =>
      intro bus hm h _
      simpa [subscribeList] using h
  | cons p rest ih =>
      intro bus hm h hnd
      obtain ⟨i, hh⟩ := p
      have hnd' := hnd
      rw [List.map_append, List.nodup_append] at hnd'
      have hi : i ∉ hm.map Prod.fst := fun hmem => hnd'.2.2 hmem (by simp)
      have hstep : alistGet et (subscribe bus et hh i).snd.event_handler_map
          = some (hm ++ [(i, hh)]) := by
        rw [subscribe_get_some bus et hh i hm h,
          alistInsert_of_not_mem i hh hm hi]
      have hnd2 : (((hm ++ [(i, hh)]) ++ rest).map Prod.fst).Nodup := by
        rw [List.append_assoc]
        simpa using hnd
      have hres := ih (subscribe bus et hh i).snd (hm ++ [(i, hh)]) hstep hnd2
      rw [List.append_assoc] at hres
      simpa [subscribeList] using hres

end BusLemmas

/-
Concrete sample states over the payload type Nat, used to instantiate
the theorems below at explicit inputs.
-/

/-- A handler that always succeeds. -/
def sampleOk : Handler Nat := fun _ => Except.ok ()

/-- A handler that always fails. -/
def sampleFail : Handler Nat := fun _ => Except.error (BasuError.HandlerError "boom")

/-- A first concrete handler id. -/
def hidOne : HandlerId := ⟨1⟩

/-- A second concrete handler id. -/
def hidTwo : HandlerId := ⟨2⟩

/-- A concrete event. -/
def sampleEvent : Event Nat := ⟨0⟩

/-- A bus with an empty event-type table. -/
def emptyBus : EventBus Nat := ⟨[]⟩

/-- A bus with one handler registered under the type "evt". -/
def busOne : EventBus Nat := ⟨[("evt", [(hidOne, sampleOk)])]⟩

/-- A bus with a succeeding and a failing handler under the type "evt". -/
def busTwo : EventBus Nat := ⟨[("evt", [(hidOne, sampleOk), (hidTwo, sampleFail)])]⟩

/-- C1: for every event type present in the event-type table, publish
invokes exactly the handlers currently in that type registry and returns
success if and only if every handler returns success (in particular it
succeeds trivially on an empty registry); when at least one handler
fails, publish returns the first handler failure encountered, so no
handler failure is suppressed into a successful return. -/
theorem publish_semantics {α : Type} (bus : EventBus α) (et : String)
    (ev : Event α) (hm : HandlerMap α)
    (h : alistGet et bus.event_handler_map = some hm) :
    ((publish bus et ev).fst = Except.ok () ↔
      ∀ p ∈ hm, p.snd ev = Except.ok ())
    ∧ (hm = [] → (publish bus et ev).fst = Except.ok ())
    ∧ (∀ e, firstFailure (fun p => p.snd ev) hm = some e →
        (publish bus et ev).fst = Except.error e)
    ∧ invokedIds (publishTrace bus et) = hm.map Prod.fst := by
  have hp : (publish bus et ev).fst = tryForEach (fun p => p.snd ev) hm := by
    simp [publish, h]
  refine ⟨?_, ?_, ?_, ?_⟩
  · rw [hp]
    exact tryForEach_ok_iff _ hm
  · intro he
    subst he
    rw [hp]
    rfl
  · intro e hfe
    rw [hp]
    exact tryForEach_firstFailure _ hm e hfe
  · simp only [publishTrace, h, invokedIds]
    clear hp h
    induction hm with
    | nil => rfl
    | cons q qs ihq => simpa using ihq

/-- Witness for C1 at a concrete bus with one succeeding and one failing
handler. -/
theorem publish_semantics_witness :
    alistGet "evt" busTwo.event_handler_map
        = some [(hidOne, sampleOk), (hidTwo, sampleFail)]
    ∧ (((publish busTwo "evt" sampleEvent).fst = Except.ok () ↔
          ∀ p ∈ [(hidOne, sampleOk), (hidTwo, sampleFail)],
            p.snd sampleEvent = Except.ok ())
        ∧ ([(hidOne, sampleOk), (hidTwo, sampleFail)] = ([] : HandlerMap Nat) →
            (publish busTwo "evt" sampleEvent).fst = Except.ok ())
        ∧ (∀ e, firstFailure (fun p => p.snd sampleEvent)
              [(hidOne, sampleOk), (hidTwo, sampleFail)] = some e →
            (publish busTwo "evt" sampleEvent).fst = Except.error e)
        ∧ invokedIds (publishTrace busTwo "evt")
            = [(hidOne, sampleOk), (hidTwo, sampleFail)].map Prod.fst) :=
  ⟨rfl, publish_semantics busTwo "evt" sampleEvent
    [(hidOne, sampleOk), (hidTwo, sampleFail)] rfl⟩

/-- C2: for every event type name with no entry in the event-type table,
get_handler_count, unsubscribe, and publish each fail with the
event-type-not-found error. -/
theorem not_found_ops {α : Type} (bus : EventBus α) (et : String)
    (hid : HandlerId) (ev : Event α)
    (h : alistGet et bus.event_handler_map = none) :
    (get_handler_count bus et).fst = Except.error BasuError.EventTypeNotFOUND
    ∧ (unsubscribe bus et hid).fst = Except.error BasuError.EventTypeNotFOUND
    ∧ (publish bus et ev).fst = Except.error BasuError.EventTypeNotFOUND := by
  refine ⟨?_, ?_, ?_⟩ <;> simp [get_handler_count, unsubscribe, publish, h]

/-- Witness for C2 at the empty bus. -/
theorem not_found_ops_witness :
    alistGet "evt" emptyBus.event_handler_map = none
    ∧ ((get_handler_count emptyBus "evt").fst
          = Except.error BasuError.EventTypeNotFOUND
        ∧ (unsubscribe emptyBus "evt" hidOne).fst
            = Except.error BasuError.EventTypeNotFOUND
        ∧ (publish emptyBus "evt" sampleEvent).fst
            = Except.error BasuError.EventTypeNotFOUND) :=
  ⟨rfl, not_found_ops emptyBus "evt" hidOne sampleEvent rfl⟩

/-- C3 counterexample: the claim quantifies over every N, but at N = 0 on
a bus whose table has no entry for the event type, zero subscribe calls
leave the table without an entry, and get_handler_count fails with
event-type-not-found instead of returning 0. -/
theorem subscribe_zero_counterexample :
    (get_handler_count (subscribeList "evt" emptyBus []) "evt").fst
        = Except.error BasuError.EventTypeNotFOUND
    ∧ ¬ (get_handler_count (subscribeList "evt" emptyBus []) "evt").fst
        = Except.ok 0 := by
  refine ⟨rfl, ?_⟩
  intro hcontra
  simp [subscribeList, get_handler_count, emptyBus, alistGet] at hcontra

/-- C3 (amended): starting from a bus whose registry under the given
event type is empty (any N), or whose table has no entry for the type
(any N of at least 1), performing N successful subscribe calls with
pairwise distinct minted ids makes get_handler_count for that type
return N, and the N returned HandlerId values are pairwise distinct. -/
theorem subscribe_n_count {α : Type} (bus : EventBus α) (et : String)
    (pairs : List (HandlerId × Handler α))
    (hstart : alistGet et bus.event_handler_map = some [] ∨
      (alistGet et bus.event_handler_map = none ∧ pairs ≠ []))
    (hfresh : (pairs.map Prod.fst).Nodup) :
    (get_handler_count (subscribeList et bus pairs) et).fst
        = Except.ok pairs.length
    ∧ (pairs.map Prod.fst).Nodup := by
  refine ⟨?_, hfresh⟩
  rcases hstart with h | ⟨h, hne⟩
  · have hres := subscribeList_get et pairs bus [] h (by simpa using hfresh)
    simp only [List.nil_append] at hres
    exact get_handler_count_of_get _ _ _ hres
  · cases pairs with
    | nil => exact absurd rfl hne
    | cons p rest =>
        obtain ⟨i, hh⟩ := p
        have h1 := subscribe_get_none bus et hh i h
        have hres := subscribeList_get et rest (subscribe bus et hh i).snd
          [(i, hh)] h1 (by simpa using hfresh)
        simp only [subscribeList]
        rw [get_handler_count_of_get _ _ _ hres]
        simp

/-- Witness for C3 (amended) at the empty bus with two fresh ids. -/
theorem subscribe_n_count_witness :
    (alistGet "evt" emptyBus.event_handler_map = some [] ∨
      (alistGet "evt" emptyBus.event_handler_map = none ∧
        ([(hidOne, sampleOk), (hidTwo, sampleOk)] : List (HandlerId × Handler Nat)) ≠ []))
    ∧ (([(hidOne, sampleOk), (hidTwo, sampleOk)].map Prod.fst).Nodup)
    ∧ ((get_handler_count
          (subscribeList "evt" emptyBus [(hidOne, sampleOk), (hidTwo, sampleOk)])
          "evt").fst = Except.ok 2
        ∧ ([(hidOne, sampleOk), (hidTwo, sampleOk)].map Prod.fst).Nodup) :=
  ⟨Or.inr ⟨rfl, by simp⟩, by decide,
    subscribe_n_count emptyBus "evt" [(hidOne, sampleOk), (hidTwo, sampleOk)]
      (Or.inr ⟨rfl, by simp⟩) (by decide)⟩

/-- C4: for every event type with a table entry whose registry has
pairwise distinct keys (the HashMap invariant), unsubscribing an id that
is present succeeds and decreases the handler count by exactly 1, and
unsubscribing the same id again succeeds and leaves the count unchanged;
unsubscribing an id that is not present succeeds and leaves the count
unchanged. -/
theorem unsubscribe_decrement_idempotent {α : Type} (bus : EventBus α)
    (et : String) (hid : HandlerId) (hm : HandlerMap α)
    (hget : alistGet et bus.event_handler_map = some hm)
    (hnd : (hm.map Prod.fst).Nodup) :
    (unsubscribe bus et hid).fst = Except.ok ()
    ∧ (hid ∈ hm.map Prod.fst →
        (get_handler_count (unsubscribe bus et hid).snd et).fst
            = Except.ok (hm.length - 1)
        ∧ (hm.length - 1) + 1 = hm.length
        ∧ (unsubscribe (unsubscribe bus et hid).snd et hid).fst = Except.ok ()
        ∧ (get_handler_count
              (unsubscribe (unsubscribe bus et hid).snd et hid).snd et).fst
            = Except.ok (hm.length - 1))
    ∧ (hid ∉ hm.map Prod.fst →
        (get_handler_count (unsubscribe bus et hid).snd et).fst
            = Except.ok hm.length) := by
  have hg1 : alistGet et (unsubscribe bus et hid).snd.event_handler_map
      = some (alistRemove hid hm) := by
    simp only [unsubscribe, hget]
    exact alistGet_insert_self _ _ _
  refine ⟨unsubscribe_fst_ok _ _ _ _ hget, ?_, ?_⟩
  · intro hmem
    have hlen := alistRemove_length_of_mem hid hm hmem
    have hnotin := alistRemove_not_mem_keys hid hm hnd
    have hg2 : alistGet et
        (unsubscribe (unsubscribe bus et hid).snd et hid).snd.event_handler_map
        = some (alistRemove hid (alistRemove hid hm)) := by
      generalize hb : (unsubscribe bus et hid).snd = bus1 at hg1 ⊢
      simp only [unsubscribe, hg1]
      exact alistGet_insert_self _ _ _
    rw [alistRemove_of_not_mem hid (alistRemove hid hm) hnotin] at hg2
    refine ⟨?_, by omega, unsubscribe_fst_ok _ _ _ _ hg1, ?_⟩
    · rw [get_handler_count_of_get _ _ _ hg1]
      congr 1
      omega
    · rw [get_handler_count_of_get _ _ _ hg2]
      congr 1
      omega
  · intro hmem
    rw [alistRemove_of_not_mem hid hm hmem] at hg1
    exact get_handler_count_of_get _ _ _ hg1

/-- Witness for C4 at a concrete bus with two handlers, removing the
first one. -/
theorem unsubscribe_decrement_idempotent_witness :
    alistGet "evt" busTwo.event_handler_map
        = some [(hidOne, sampleOk), (hidTwo, sampleFail)]
    ∧ (([(hidOne, sampleOk), (hidTwo, sampleFail)].map Prod.fst).Nodup)
    ∧ ((unsubscribe busTwo "evt" hidOne).fst = Except.ok ()
        ∧ (hidOne ∈ [(hidOne, sampleOk), (hidTwo, sampleFail)].map Prod.fst →
            (get_handler_count (unsubscribe busTwo "evt" hidOne).snd "evt").fst
                = Except.ok ([(hidOne, sampleOk), (hidTwo, sampleFail)].length - 1)
            ∧ ([(hidOne, sampleOk), (hidTwo, sampleFail)].length - 1) + 1
                = [(hidOne, sampleOk), (hidTwo, sampleFail)].length
            ∧ (unsubscribe (unsubscribe busTwo "evt" hidOne).snd "evt" hidOne).fst
                = Except.ok ()
            ∧ (get_handler_count
                  (unsubscribe (unsubscribe busTwo "evt" hidOne).snd "evt"
                    hidOne).snd "evt").fst
                = Except.ok ([(hidOne, sampleOk), (hidTwo, sampleFail)].length - 1))
        ∧ (hidOne ∉ [(hidOne, sampleOk), (hidTwo, sampleFail)].map Prod.fst →
            (get_handler_count (unsubscribe busTwo "evt" hidOne).snd "evt").fst
                = Except.ok [(hidOne, sampleOk), (hidTwo, sampleFail)].length)) :=
  ⟨rfl, by decide,
    unsubscribe_decrement_idempotent busTwo "evt" hidOne
      [(hidOne, sampleOk), (hidTwo, sampleFail)] rfl (by decide)⟩

/-- C5: unsubscribe never removes an event-type entry from the table:
whenever an event type has an entry, then after any unsubscribe call
(against this or any other event type, and whether or not it removed the
last handler) the entry is still present, list still contains the name,
and get_handler_count returns success rather than
event-type-not-found. -/
theorem unsubscribe_keeps_entry {α : Type} (bus : EventBus α)
    (et et' : String) (hid : HandlerId) (hm : HandlerMap α)
    (h : alistGet et bus.event_handler_map = some hm) :
    ∃ hm',
      alistGet et (unsubscribe bus et' hid).snd.event_handler_map = some hm'
      ∧ et ∈ (list (unsubscribe bus et' hid).snd).fst
      ∧ (get_handler_count (unsubscribe bus et' hid).snd et).fst
          = Except.ok hm'.length := by
  suffices hkey : ∃ hm',
      alistGet et (unsubscribe bus et' hid).snd.event_handler_map = some hm' by
    obtain ⟨hm', hk⟩ := hkey
    exact ⟨hm', hk, by simpa [list] using alistGet_some_mem _ _ _ hk,
      get_handler_count_of_get _ _ _ hk⟩
  by_cases he : et' = et
  · subst he
    refine ⟨alistRemove hid hm, ?_⟩
    simp only [unsubscribe, h]
    exact alistGet_insert_self _ _ _
  · cases hget' : alistGet et' bus.event_handler_map with
    | none =>
        refine ⟨hm, ?_⟩
        simpa [unsubscribe, hget'] using h
    | some hm2 =>
        refine ⟨hm, ?_⟩
        simp only [unsubscribe, hget']
        rw [alistGet_insert_ne et et' _ _ he]
        exact h

/-- Witness for C5: removing the only handler of "evt" keeps the entry
with an empty registry. -/
theorem unsubscribe_keeps_entry_witness :
    alistGet "evt" busOne.event_handler_map = some [(hidOne, sampleOk)]
    ∧ (∃ hm',
        alistGet "evt" (unsubscribe busOne "evt" hidOne).snd.event_handler_map
            = some hm'
        ∧ "evt" ∈ (list (unsubscribe busOne "evt" hidOne).snd).fst
        ∧ (get_handler_count (unsubscribe busOne "evt" hidOne).snd "evt").fst
            = Except.ok hm'.length) :=
  ⟨rfl, unsubscribe_keeps_entry busOne "evt" "evt" hidOne [(hidOne, sampleOk)] rfl⟩

/-- C6: after clear the event-type table is empty: list returns the
empty sequence, and every event type name now fails get_handler_count,
unsubscribe, and publish with event-type-not-found. -/
theorem clear_empties {α : Type} (bus : EventBus α) (et : String)
    (hid : HandlerId) (ev : Event α) :
    (list (clear bus)).fst = []
    ∧ (get_handler_count (clear bus) et).fst
        = Except.error BasuError.EventTypeNotFOUND
    ∧ (unsubscribe (clear bus) et hid).fst
        = Except.error BasuError.EventTypeNotFOUND
    ∧ (publish (clear bus) et ev).fst
        = Except.error BasuError.EventTypeNotFOUND := by
  refine ⟨rfl, ?_, ?_, ?_⟩ <;>
    simp [clear, get_handler_count, unsubscribe, publish, alistGet]

/-- C7 counterexample: on a concrete bus with one handler under "evt",
the publish trace performs the handler invocation before the table lock
is released, so it is not the case that the table lock is released
before handler invocations run. -/
theorem publish_lock_counterexample :
    ¬ releasedBeforeFirstInvoke (publishTrace busOne "evt") = true := by
  decide

/-- C7 (amended): during publish on an event type present in the table,
the table lock is held across handler invocations: both lock guards are
dropped only at the end of the call, releasing the table lock last,
after every handler invocation, so an operation on a different event
type can be blocked by a slow handler of the published type.  The trace
invokes exactly the registered handlers, the table-lock release is the
final action, and when the registry is nonempty the release does not
precede the first invocation. -/
theorem publish_table_lock_held {α : Type} (bus : EventBus α) (et : String)
    (hm : HandlerMap α) (h : alistGet et bus.event_handler_map = some hm) :
    (publishTrace bus et).getLast? = some LockAction.releaseTable
    ∧ invokedIds (publishTrace bus et) = hm.map Prod.fst
    ∧ (hm ≠ [] → releasedBeforeFirstInvoke (publishTrace bus et) = false) := by
  refine ⟨?_, ?_, ?_⟩
  · have hsplit : publishTrace bus et
        = (LockAction.acquireTable :: LockAction.acquireRegistry et ::
            (hm.map (fun p => LockAction.invokeHandler p.fst) ++
              [LockAction.releaseRegistry et])) ++ [LockAction.releaseTable] := by
      simp [publishTrace, h]
    rw [hsplit]
    exact List.getLast?_concat _
  · simp only [publishTrace, h, invokedIds]
    clear h
    induction hm with
    | nil => rfl
    | cons q qs ihq => simpa using ihq
  · intro hne
    simp only [publishTrace, h]
    cases hm with
    | nil => exact absurd rfl hne
    | cons q qs => rfl

/-- Witness for C7 (amended) at a concrete one-handler bus. -/
theorem publish_table_lock_held_witness :
    alistGet "evt" busOne.event_handler_map = some [(hidOne, sampleOk)]
    ∧ ((publishTrace busOne "evt").getLast? = some LockAction.releaseTable
        ∧ invokedIds (publishTrace busOne "evt")
            = [(hidOne, sampleOk)].map Prod.fst
        ∧ (([(hidOne, sampleOk)] : HandlerMap Nat) ≠ [] →
            releasedBeforeFirstInvoke (publishTrace busOne "evt") = false)) :=
  ⟨rfl, publish_table_lock_held busOne "evt" [(hidOne, sampleOk)] rfl⟩

/-- C8: the read-only operations publish, list, and get_handler_count
never modify the bus state, whether they succeed or fail (handlers
modelled as not calling back into the bus). -/
theorem readonly_ops_preserve_state {α : Type} (bus : EventBus α)
    (et : String) (ev : Event α) :
    (publish bus et ev).snd = bus
    ∧ (list bus).snd = bus
    ∧ (get_handler_count bus et).snd = bus := by
  refine ⟨?_, rfl, ?_⟩ <;>
    cases h : alistGet et bus.event_handler_map <;>
      simp [publish, get_handler_count, h]

/-- C9: every operation that fails with event-type-not-found leaves the
bus state completely unchanged: when the event type has no table entry,
unsubscribe, publish, and get_handler_count each return the
event-type-not-found error and perform no mutation of the table or any
registry. -/
theorem error_branch_atomic {α : Type} (bus : EventBus α) (et : String)
    (hid : HandlerId) (ev : Event α)
    (h : alistGet et bus.event_handler_map = none) :
    (unsubscribe bus et hid).snd = bus
    ∧ (unsubscribe bus et hid).fst = Except.error BasuError.EventTypeNotFOUND
    ∧ (publish bus et ev).snd = bus
    ∧ (publish bus et ev).fst = Except.error BasuError.EventTypeNotFOUND
    ∧ (get_handler_count bus et).snd = bus
    ∧ (get_handler_count bus et).fst
        = Except.error BasuError.EventTypeNotFOUND := by
  refine ⟨?_, ?_, ?_, ?_, ?_, ?_⟩ <;>
    simp [unsubscribe, publish, get_handler_count, h]

/-- Witness for C9 at a one-entry bus and an unknown event type. -/
theorem error_branch_atomic_witness :
    alistGet "other" busOne.event_handler_map = none
    ∧ ((unsubscribe busOne "other" hidOne).snd = busOne
        ∧ (unsubscribe busOne "other" hidOne).fst
            = Except.error BasuError.EventTypeNotFOUND
        ∧ (publish busOne "other" sampleEvent).snd = busOne
        ∧ (publish busOne "other" sampleEvent).fst
            = Except.error BasuError.EventTypeNotFOUND
        ∧ (get_handler_count busOne "other").snd = busOne
        ∧ (get_handler_count busOne "other").fst
            = Except.error BasuError.EventTypeNotFOUND) :=
  ⟨rfl, error_branch_atomic busOne "other" hidOne sampleEvent rfl⟩

/-- C10: when the minted HandlerId collides with a key already present
in the target registry, subscribe overwrites the existing handler under
that id instead of adding a new entry, and the handler count does not
increase. -/
theorem subscribe_collision_overwrite {α : Type} (bus : EventBus α)
    (et : String) (handler : Handler α) (hid : HandlerId) (hm : HandlerMap α)
    (hget : alistGet et bus.event_handler_map = some hm)
    (hmem : hid ∈ hm.map Prod.fst) :
    alistGet et (subscribe bus et handler hid).snd.event_handler_map
        = some (alistInsert hid handler hm)
    ∧ alistGet hid (alistInsert hid handler hm) = some handler
    ∧ (get_handler_count (subscribe bus et handler hid).snd et).fst
        = Except.ok hm.length := by
  have hg := subscribe_get_some bus et handler hid hm hget
  refine ⟨hg, alistGet_insert_self _ _ _, ?_⟩
  rw [get_handler_count_of_get _ _ _ hg,
    alistInsert_length_of_mem _ _ _ hmem]

/-- Witness for C10: re-using the id of the registered handler of busOne
replaces it and leaves the count at 1. -/
theorem subscribe_collision_overwrite_witness :
    alistGet "evt" busOne.event_handler_map = some [(hidOne, sampleOk)]
    ∧ hidOne ∈ [(hidOne, sampleOk)].map Prod.fst
    ∧ (alistGet "evt"
          (subscribe busOne "evt" sampleFail hidOne).snd.event_handler_map
        = some (alistInsert hidOne sampleFail [(hidOne, sampleOk)])
      ∧ alistGet hidOne (alistInsert hidOne sampleFail [(hidOne, sampleOk)])
          = some sampleFail
      ∧ (get_handler_count (subscribe busOne "evt" sampleFail hidOne).snd
            "evt").fst = Except.ok [(hidOne, sampleOk)].length) :=
  ⟨rfl, by decide,
    subscribe_collision_overwrite busOne "evt" sampleFail hidOne
      [(hidOne, sampleOk)] rfl (by decide)⟩

end Basu
